import Mathlib

/-!
Verification of the `leaders` competition-application portal.

This file gives a shallow embedding, in Lean 4, of the parts of the
repository needed to settle the claims about it: the SQL status
canonicalization (`to_status_code` and the two `BEFORE` triggers in
`app/db.py`), the schema bootstrap `_apply_bootstrap_sql`, the migration
runner `run_migrations` (`app/migrations.py`), the test gate
`_user_has_approved`, the test-taking and scoring logic of `take_test`
(`app/routes/tests.py`), the `provisioner_required` decorator
(`app/decorators.py`), `delete_user` (`app/routes/provisioning.py`) and
the password-reset flow `forgot`/`reset` (`app/routes/auth.py`).

Conventions: SQL `TEXT` columns that may be `NULL` are `Option String`,
`TIMESTAMPTZ` values are `Int` (an absolute time in seconds),
database tables are Lean lists of row structures, and each Python/SQL
function is translated into a pure Lean function over this state.
-/

namespace Leaders

/-! ### String primitives

Models of the PostgreSQL and Python string functions that the code uses.
The strings this program compares are Russian and English status words,
so lower-casing is modelled for the ASCII and Cyrillic alphabets, on
which PostgreSQL `lower()` and Python `str.lower()` agree. -/

/-- Lower-case a character: ASCII `A`-`Z`, Cyrillic `А`-`Я` (U+0410..U+042F,
both map by adding 32) and `Ё` (U+0401 → U+0451). -/
def lowerChar (c : Char) : Char :=
  if 'A' ≤ c ∧ c ≤ 'Z' then Char.ofNat (c.toNat + 32)
  else if 'А' ≤ c ∧ c ≤ 'Я' then Char.ofNat (c.toNat + 32)
  else if c = 'Ё' then 'ё'
  else c

/-- Model of PostgreSQL `lower()` / Python `str.lower()` on the alphabets used. -/
def lowerStr (s : String) : String :=
  String.mk (s.toList.map lowerChar)

/-- Model of PostgreSQL `btrim(s)`: strips spaces (only spaces) from both ends. -/
def btrim (s : String) : String :=
  String.mk (((s.toList.dropWhile (· = ' ')).reverse.dropWhile (· = ' ')).reverse)

/-- Model of Python `str.strip()`: strips all whitespace from both ends. -/
def pyStrip (s : String) : String :=
  String.mk (((s.toList.dropWhile Char.isWhitespace).reverse.dropWhile Char.isWhitespace).reverse)

/-- Character-list version of "does `s` start with `p`". -/
def beginsWithL (p s : List Char) : Bool :=
  match p, s with
  | [], _ => true
  | _ :: _, [] => false
  | a :: ps, b :: ss => a = b && beginsWithL ps ss

/-- Model of SQL `v LIKE 'pat%'` / Python `str.startswith`. -/
def beginsWith (s p : String) : Bool :=
  beginsWithL p.toList s.toList

/-- Model of Python `str.isdigit()` for the ASCII digits the forms submit:
nonempty and all characters are digits. -/
def isDigitStr (s : String) : Bool :=
  !s.toList.isEmpty && s.toList.all Char.isDigit

/-- Base-10 value of a digit character list. -/
def digitsToNat (cs : List Char) : Nat :=
  cs.foldl (fun n c => n * 10 + (c.toNat - 48)) 0

/-- Model of Python `int(v)` on a string accepted by `isDigitStr`. -/
def digitVal (s : String) : Int :=
  (digitsToNat s.toList : Nat)

/-! ### Status canonicalization (`app/db.py`, function `to_status_code`) -/

/-- Words the SQL function `to_status_code` maps to `'approved'`
(besides any word starting with `одобр`). -/
def approvedWords : List String :=
  ["approve", "approved", "ok", "accept", "accepted", "да", "true", "1"]

/-- Words the SQL function `to_status_code` maps to `'rejected'`
(besides any word starting with `отклон`). -/
def rejectedWords : List String :=
  ["reject", "rejected", "deny", "denied", "cancel", "нет", "false", "0"]

/-- Embedding of the PL/pgSQL function `to_status_code(s text)` created by
`_apply_bootstrap_sql`: `NULL`/blank input gives `NULL`; `lower(btrim(s))`
starting with `одобр` or in the approved word list gives `'approved'`;
starting with `отклон` or in the rejected word list gives `'rejected'`;
anything else is returned unchanged. -/
def to_status_code (s : Option String) : Option String :=
  match s with
  | none => none
  | some s =>
    if btrim s = "" then none
    else
      let v := lowerStr (btrim s)
      if beginsWith v "одобр" ∨ v ∈ approvedWords then some "approved"
      else if beginsWith v "отклон" ∨ v ∈ rejectedWords then some "rejected"
      else some s

/-! ### Schema bootstrap (`app/db.py`, function `_apply_bootstrap_sql`)

The bootstrap script is a fixed sequence of SQL statements executed on one
cursor.  The database state it can observe or change is modelled by
`DBState`: for each table an `Option (List String)` (`none` when the table
does not exist, otherwise its column names), the list of index names, the
`applications_public_no_seq` sequence as `(last_value, is_called)`, flags
for the default/`NOT NULL` on `public_no`, the two `CHECK` constraints,
the three functions and the two triggers, and the data rows the script
updates (`applications.public_no`/`commission_status` and
`commission_logs.old_status`/`new_status`). -/

/-- Row of `applications`, restricted to the columns the bootstrap data
statements read or write. -/
structure AppRow where
  public_no : Option Int
  commission_status : Option String
deriving DecidableEq, Repr

/-- Row of `commission_logs`, restricted to the columns the bootstrap data
statements read or write. -/
structure LogRow where
  old_status : Option String
  new_status : Option String
deriving DecidableEq, Repr

/-- Database state as seen by `_apply_bootstrap_sql`. -/
structure DBState where
  users : Option (List String)
  applications : Option (List String)
  tests : Option (List String)
  test_attempts : Option (List String)
  password_resets : Option (List String)
  internal_user_logs : Option (List String)
  commission_logs : Option (List String)
  indexes : List String
  seq_public_no : Option (Int × Bool)
  public_no_default : Bool
  public_no_not_null : Bool
  chk_app_status : Bool
  chk_logs_status : Bool
  fn_to_status_code : Bool
  fn_trg_app : Bool
  fn_trg_logs : Bool
  trg_app : Bool
  trg_logs : Bool
  app_rows : List AppRow
  log_rows : List LogRow
deriving DecidableEq, Repr

/-- `CREATE TABLE IF NOT EXISTS t (cols)`. -/
def createTableIfAbsent (t : Option (List String)) (cols : List String) : Option (List String) :=
  match t with
  | none => some cols
  | some cs => some cs

/-- `ALTER TABLE t ADD COLUMN IF NOT EXISTS col`.  Every such statement in
the script runs after the table's `CREATE TABLE IF NOT EXISTS`, so the
`none` case is unreachable there. -/
def addColumnIfAbsent (t : Option (List String)) (col : String) : Option (List String) :=
  match t with
  | none => none
  | some cs => some (if col ∈ cs then cs else cs ++ [col])

/-- `CREATE INDEX IF NOT EXISTS name ...` (also used for the unique index). -/
def createIndexIfAbsent (idxs : List String) (name : String) : List String :=
  if name ∈ idxs then idxs else idxs ++ [name]

/-- `CREATE SEQUENCE IF NOT EXISTS applications_public_no_seq`. -/
def createSequenceIfAbsent (q : Option (Int × Bool)) : Option (Int × Bool) :=
  match q with
  | none => some (1, false)
  | some q => some q

/-- `SELECT MAX(public_no) FROM applications` (`NULL` values ignored,
`NULL` when no non-null value exists). -/
def maxPublicNo (rows : List AppRow) : Option Int :=
  rows.foldl (fun acc r =>
    match r.public_no, acc with
    | none, a => a
    | some v, none => some v
    | some v, some a => some (max a v)) none

/-- PostgreSQL `nextval` on the `(last_value, is_called)` pair: returns the
drawn value and the new sequence state.  The script calls it only after
`setval(..., false)`, so the `none` case is unreachable. -/
def nextval (q : Option (Int × Bool)) : Int × Option (Int × Bool) :=
  match q with
  | none => (1, some (1, true))
  | some (v, c) => if c then (v + 1, some (v + 1, true)) else (v, some (v, true))

/-- `UPDATE applications SET public_no = nextval(...) WHERE public_no IS NULL`:
each row whose `public_no` is `NULL` draws the next sequence value. -/
def fillPublicNo (rows : List AppRow) (q : Option (Int × Bool)) :
    List AppRow × Option (Int × Bool) :=
  match rows with
  | [] => ([], q)
  | r :: rest =>
    match r.public_no with
    | none =>
      let v := (nextval q).1
      let p := fillPublicNo rest (nextval q).2
      ({ r with public_no := some v } :: p.1, p.2)
    | some _ =>
      let p := fillPublicNo rest q
      (r :: p.1, p.2)

/-- `UPDATE applications SET commission_status = to_status_code(commission_status)
WHERE commission_status IS NOT NULL`, on one row. -/
def normAppRow (r : AppRow) : AppRow :=
  if r.commission_status = none then r
  else { r with commission_status := to_status_code r.commission_status }

/-- `UPDATE commission_logs SET old_status = ..., new_status = ...
WHERE old_status IS NOT NULL OR new_status IS NOT NULL`, on one row. -/
def normLogRow (r : LogRow) : LogRow :=
  if r.old_status = none ∧ r.new_status = none then r
  else { old_status := to_status_code r.old_status,
         new_status := to_status_code r.new_status }

/-- Sanitation step 3.1 for `applications`: any value that is neither
`'approved'` nor `'rejected'` becomes `NULL`. -/
def sanitizeAppRow (r : AppRow) : AppRow :=
  if r.commission_status ≠ none ∧ r.commission_status ≠ some "approved" ∧
      r.commission_status ≠ some "rejected" then
    { r with commission_status := none }
  else r

/-- Sanitation step 3.1 for `commission_logs.old_status`. -/
def sanitizeLogOld (r : LogRow) : LogRow :=
  if r.old_status ≠ none ∧ r.old_status ≠ some "approved" ∧
      r.old_status ≠ some "rejected" then
    { r with old_status := none }
  else r

/-- Sanitation step 3.1 for `commission_logs.new_status`. -/
def sanitizeLogNew (r : LogRow) : LogRow :=
  if r.new_status ≠ none ∧ r.new_status ≠ some "approved" ∧
      r.new_status ≠ some "rejected" then
    { r with new_status := none }
  else r

/-- Column list of `CREATE TABLE IF NOT EXISTS users`. -/
def usersCols : List String :=
  ["id", "email", "full_name", "form_data", "commission_comment", "commission_status",
   "test_score", "test_answers", "password_hash", "is_verified", "created_at", "role"]

/-- Column list of `CREATE TABLE IF NOT EXISTS applications`. -/
def applicationsCols : List String :=
  ["id", "user_id", "form_data", "commission_comment", "commission_status",
   "test_score", "test_answers", "created_at", "test_link"]

/-- Column list of `CREATE TABLE IF NOT EXISTS tests`. -/
def testsCols : List String :=
  ["id", "title", "description", "duration_minutes", "questions", "created_at", "is_published"]

/-- Column list of `CREATE TABLE IF NOT EXISTS test_attempts`. -/
def testAttemptsCols : List String :=
  ["id", "user_id", "test_id", "started_at", "finished_at", "score", "answers"]

/-- Column list of `CREATE TABLE IF NOT EXISTS password_resets`. -/
def passwordResetsCols : List String :=
  ["id", "user_id", "token", "expires_at", "used", "created_at"]

/-- Column list of `CREATE TABLE IF NOT EXISTS internal_user_logs`. -/
def internalUserLogsCols : List String :=
  ["id", "actor_user_id", "target_user_id", "action", "meta", "ip", "created_at"]

/-- Column list of `CREATE TABLE IF NOT EXISTS commission_logs`. -/
def commissionLogsCols : List String :=
  ["id", "app_id", "admin_id", "action", "old_status", "new_status", "comment",
   "ip_addr", "user_agent", "meta", "created_at"]
/-! Normal forms of the bootstrap, one per state component. -/

/-- Fold of `ALTER TABLE ... ADD COLUMN IF NOT EXISTS` over a column list. -/
def addColumns (t : Option (List String)) (cols : List String) : Option (List String) :=
  cols.foldl addColumnIfAbsent t

/-- Fold of `CREATE INDEX IF NOT EXISTS` over a name list. -/
def addIndexes (idxs : List String) (names : List String) : List String :=
  names.foldl createIndexIfAbsent idxs

/-- Columns added to `users` by the bootstrap, in statement order. -/
def usersAddedCols : List String :=
  ["role", "created_at", "is_verified", "password_hash", "form_data", "test_answers",
   "access_expires_at", "is_active", "must_change_password", "inn", "phone",
   "position", "priority"]

/-- Index names created by the bootstrap, in statement order. -/
def bootstrapIndexNames : List String :=
  ["idx_users_email", "idx_app_public_no", "idx_app_user", "idx_app_created",
   "idx_tests_created", "idx_tests_published", "idx_attempt_user", "idx_attempt_test",
   "idx_attempt_finished", "idx_pr_user", "idx_pr_expires", "iul_actor_idx",
   "iul_target_idx", "iul_created_idx", "idx_comm_logs_app", "idx_comm_logs_created",
   "idx_comm_logs_action", "idx_comm_logs_new_status", "idx_app_status"]

/-- Net effect of the bootstrap on the `applications` data rows. -/
def appRowsAfter (rows : List AppRow) : List AppRow :=
  (((fillPublicNo rows (some ((maxPublicNo rows).getD 0 + 1, false))).1).map
    normAppRow).map sanitizeAppRow

/-- Net effect of the bootstrap on the `commission_logs` data rows. -/
def logRowsAfter (rows : List LogRow) : List LogRow :=
  ((rows.map normLogRow).map sanitizeLogOld).map sanitizeLogNew

/-- Columns added to `applications` by the bootstrap, in statement order
(`public_no` right after the table, `test_link` in the legacy block). -/
def applicationsAddedCols : List String :=
  ["public_no", "test_link"]

/-- Net effect of the bootstrap on the sequence: the `setval(...)` from the
script overwrites whatever `CREATE SEQUENCE IF NOT EXISTS` left, and then
the `WHERE public_no IS NULL` update draws from it. -/
def seqAfter (rows : List AppRow) : Option (Int × Bool) :=
  (fillPublicNo rows (some ((maxPublicNo rows).getD 0 + 1, false))).2

/-- Embedding of `_apply_bootstrap_sql(c)`.

The script is a fixed sequence of SQL statements; each statement reads and
writes exactly one component of `DBState` (the one exception: the
`public_no` backfill writes `app_rows` and `seq_public_no` together, and
`setval` reads `app_rows` to write the sequence — these stay grouped
here).  The transformer is therefore given per component, with the
statements of each component folded in their source order:
- `users`: `CREATE TABLE IF NOT EXISTS` + the 13 `ADD COLUMN IF NOT EXISTS`;
- `applications`: `CREATE TABLE IF NOT EXISTS` + `ADD COLUMN` `public_no`, `test_link`;
- `tests`: `CREATE TABLE IF NOT EXISTS` + `ADD COLUMN` `is_published`;
- `test_attempts`, `password_resets`, `internal_user_logs`, `commission_logs`:
  `CREATE TABLE IF NOT EXISTS`;
- `indexes`: the 19 `CREATE [UNIQUE] INDEX IF NOT EXISTS` statements;
- `seq_public_no` and `app_rows`: `CREATE SEQUENCE IF NOT EXISTS`, the
  `setval`, the `public_no` backfill, then the status normalization
  (`UPDATE ... SET commission_status = to_status_code(...)`) and the
  sanitation `UPDATE`;
- `log_rows`: status normalization and the two sanitation `UPDATE`s;
- the flags: `SET DEFAULT`, `SET NOT NULL`, `CREATE OR REPLACE FUNCTION`
  (three), `DROP TRIGGER IF EXISTS` + `CREATE TRIGGER` (twice), and
  `DROP CONSTRAINT IF EXISTS` + `ADD CONSTRAINT` (twice) each end with the
  object present, hence `true`. -/
def applyBootstrapSql (s : DBState) : DBState where
  users := addColumns (createTableIfAbsent s.users usersCols) usersAddedCols
  applications :=
    addColumns (createTableIfAbsent s.applications applicationsCols) applicationsAddedCols
  tests := addColumns (createTableIfAbsent s.tests testsCols) ["is_published"]
  test_attempts := createTableIfAbsent s.test_attempts testAttemptsCols
  password_resets := createTableIfAbsent s.password_resets passwordResetsCols
  internal_user_logs := createTableIfAbsent s.internal_user_logs internalUserLogsCols
  commission_logs := createTableIfAbsent s.commission_logs commissionLogsCols
  indexes := addIndexes s.indexes bootstrapIndexNames
  seq_public_no := seqAfter s.app_rows
  public_no_default := true
  public_no_not_null := true
  chk_app_status := true
  chk_logs_status := true
  fn_to_status_code := true
  fn_trg_app := true
  fn_trg_logs := true
  trg_app := true
  trg_logs := true
  app_rows := appRowsAfter s.app_rows
  log_rows := logRowsAfter s.log_rows

/-! ### Writes through the triggers and CHECK constraints

After the bootstrap, `applications` has the `BEFORE INSERT OR UPDATE OF
commission_status` trigger `trg_applications_status_norm` (which replaces
the incoming value by `to_status_code` of it) and the constraint
`chk_app_commission_status_codes`; `commission_logs` has
`trg_commission_logs_status_norm` and `chk_commission_logs_status_codes`.
A write returns `none` when the CHECK constraint rejects the canonicalized
row (the statement fails and changes nothing). -/

/-- Value allowed by the CHECK constraints:
`x IN ('approved','rejected') OR x IS NULL`. -/
def statusOk (v : Option String) : Prop :=
  v = none ∨ v = some "approved" ∨ v = some "rejected"

instance (v : Option String) : Decidable (statusOk v) := by
  unfold statusOk; infer_instance

/-- `INSERT INTO applications` with a given `commission_status`: the BEFORE
trigger canonicalizes the value, then the CHECK constraint decides. -/
def insertApplicationRow (rows : List AppRow) (pn : Option Int) (v : Option String) :
    Option (List AppRow) :=
  let v2 := to_status_code v
  if statusOk v2 then some (rows ++ [⟨pn, v2⟩]) else none

/-- `UPDATE applications SET commission_status = v WHERE p`: the BEFORE
trigger canonicalizes the value for each affected row, then the CHECK
constraint decides. -/
def updateApplicationStatus (rows : List AppRow) (p : AppRow → Bool) (v : Option String) :
    Option (List AppRow) :=
  let v2 := to_status_code v
  if statusOk v2 then
    some (rows.map fun r => if p r then { r with commission_status := v2 } else r)
  else none

/-- `INSERT INTO commission_logs` with given `old_status`/`new_status`. -/
def insertCommissionLogRow (rows : List LogRow) (ov nv : Option String) :
    Option (List LogRow) :=
  let ov2 := to_status_code ov
  let nv2 := to_status_code nv
  if statusOk ov2 ∧ statusOk nv2 then some (rows ++ [⟨ov2, nv2⟩]) else none

/-- `UPDATE commission_logs SET old_status = ov, new_status = nv WHERE p`. -/
def updateCommissionLogStatus (rows : List LogRow) (p : LogRow → Bool) (ov nv : Option String) :
    Option (List LogRow) :=
  let ov2 := to_status_code ov
  let nv2 := to_status_code nv
  if statusOk ov2 ∧ statusOk nv2 then
    some (rows.map fun r => if p r then { r with old_status := ov2, new_status := nv2 } else r)
  else none

/-! ### Test access gate (`app/routes/tests.py`, `_user_has_approved`) -/

/-- Row of `applications` as read by `_user_has_approved`. -/
structure UserAppRow where
  user_id : String
  commission_status : Option String
  created_at : Option Int
deriving DecidableEq, Repr

/-- Comparison implementing `ORDER BY created_at DESC NULLS LAST`:
`r` comes strictly before `b`. -/
def createdLater (r b : UserAppRow) : Bool :=
  match r.created_at, b.created_at with
  | some x, some y => y < x
  | some _, none => true
  | none, _ => false

/-- Fold step of `ORDER BY ... LIMIT 1`: keep the row that sorts first
under the strict comparison `f` (ties keep the current best). -/
def pickBest {α : Type} (f : α → α → Bool) (acc : Option α) (x : α) : Option α :=
  match acc with
  | none => some x
  | some b => if f x b then some x else some b

/-- `SELECT commission_status FROM applications WHERE user_id = %s
ORDER BY created_at DESC NULLS LAST LIMIT 1`: the user's most recent
application (ties keep the earlier row of the list). -/
def mostRecentApplication (apps : List UserAppRow) (uid : String) : Option UserAppRow :=
  (apps.filter fun r => r.user_id = uid).foldl (pickBest createdLater) none

/-- Embedding of `_user_has_approved(user_id)`: fetch the most recent
application and test whether its stored status, stripped and lowered,
starts with `одобр`. -/
def user_has_approved (apps : List UserAppRow) (uid : String) : Bool :=
  match mostRecentApplication apps uid with
  | none => false
  | some row =>
    let s := pyStrip (row.commission_status.getD "")
    beginsWith (lowerStr s) "одобр"

/-- Outcome of `_require_approved_or_redirect` in the tests routes. -/
inductive TestsGate
  | redirectLogin
  | redirectApplications
  | proceed (uid : String)
deriving DecidableEq, Repr

/-- Embedding of `_require_approved_or_redirect()`: `sessionUser` is the
result of resolving the session e-mail with `get_user_by_email` (`none`
when not logged in or unknown).  Without an approved application the user
is redirected to `main.applications`. -/
def require_approved_or_redirect (sessionUser : Option String) (apps : List UserAppRow) :
    TestsGate :=
  match sessionUser with
  | none => .redirectLogin
  | some uid =>
    if user_has_approved apps uid then .proceed uid else .redirectApplications

/-! ### Taking a test (`app/routes/tests.py`, `take_test`)

`_normalize_questions` turns each stored JSON question into a dictionary
with fields `text`, `options`, `multiple`, `correct_index` (single-choice
only) and `correct` (multiple-choice only); `NQuestion` is that shape.
The submitted form is modelled as `form : Nat → List String`, the values
posted under the key `q<i>` (`request.form.getlist` returns the whole
list, `request.form.get` its first element). -/

/-- Normalized question, the element shape produced by `_normalize_questions`. -/
structure NQuestion where
  text : String := ""
  options : List String := []
  multiple : Bool
  correct_index : Option Int := none
  correct : Option (List Int) := none
deriving DecidableEq, Repr

/-- Collected answer for one question: a single index or the sorted set of
checked indices. -/
inductive Ans
  | single (v : Int)
  | multi (vs : List Int)
deriving DecidableEq, Repr

/-- Insert into a sorted list, keeping duplicates (insertion step of
Python `sorted`). -/
def insertSortedInt (x : Int) (l : List Int) : List Int :=
  match l with
  | [] => [x]
  | y :: ys => if x ≤ y then x :: y :: ys else y :: insertSortedInt x ys

/-- Model of Python `sorted(l)` for integer lists. -/
def sortInts (l : List Int) : List Int :=
  l.foldr insertSortedInt []

/-- Model of Python `sorted(set(l))` for integer lists. -/
def sortedDedup (l : List Int) : List Int :=
  sortInts l.dedup

/-- Answer validation and collection, the `for i in range(total)` loop of the
POST branch: a multiple-choice question needs a nonempty `getlist` and
collects `sorted(set(int(v) for v in vals if v.isdigit()))`; a single-choice
question needs a present value and collects `int(v)` when it is digits,
`-1` otherwise.  The first missing answer raises the flash message and
re-renders, modelled by `none`. -/
def collectAnswers (qs : List NQuestion) (form : Nat → List String) (i : Nat) :
    Option (List Ans) :=
  match qs with
  | [] => some []
  | q :: rest =>
    if q.multiple then
      match form i with
      | [] => none
      | vals =>
        let arr := sortedDedup ((vals.filter isDigitStr).map digitVal)
        (collectAnswers rest form (i + 1)).map (Ans.multi arr :: ·)
    else
      match (form i).head? with
      | none => none
      | some v =>
        let a := if isDigitStr v then digitVal v else -1
        (collectAnswers rest form (i + 1)).map (Ans.single a :: ·)

/-- Scoring step for one question, the body of the `for i, q in
enumerate(questions)` loop: a multiple-choice question scores when
`sorted(correct)` is nonempty and equals the collected list; a
single-choice question scores when `correct_index` is present and equals
the collected value.  (The collected answer of a multiple-choice question
is always `Ans.multi` and of a single-choice question `Ans.single`; the
mismatched cases cannot score, as in Python where a list never equals an
int.) -/
def scoreStep (sc : Nat) (q : NQuestion) (a : Ans) : Nat :=
  if q.multiple then
    let corr := sortInts (q.correct.getD [])
    match a with
    | .multi arr => if corr ≠ [] ∧ arr = corr then sc + 1 else sc
    | .single _ => sc
  else
    match q.correct_index, a with
    | some ci, .single v => if v = ci then sc + 1 else sc
    | _, _ => sc

/-- The scoring loop: `score = 0; for i, q in enumerate(questions): ...`. -/
def computeScore (qs : List NQuestion) (ans : List Ans) : Nat :=
  (qs.zip ans).foldl (fun sc qa => scoreStep sc qa.1 qa.2) 0

/-- Question answered correctly, stated as the claim words it: for a
multiple-choice question the sorted set of submitted indices equals the
question's non-empty sorted list of correct indices; for a single-choice
question the submitted index equals the question's `correct_index`. -/
def correctPerSpec (q : NQuestion) (a : Ans) : Bool :=
  if q.multiple then
    sortInts (q.correct.getD []) ≠ [] ∧ a = Ans.multi (sortInts (q.correct.getD []))
  else
    match q.correct_index with
    | some ci => a = Ans.single ci
    | none => false

/-- Row of `test_attempts` as used by `take_test`. -/
structure AttemptRow where
  user_id : String
  test_id : String
  finished_at : Option Int
  score : Option Int
deriving DecidableEq, Repr

/-- Comparison implementing `ORDER BY finished_at DESC NULLS LAST`. -/
def finishedLater (r b : AttemptRow) : Bool :=
  match r.finished_at, b.finished_at with
  | some x, some y => y < x
  | some _, none => true
  | none, _ => false

/-- `SELECT ... FROM test_attempts WHERE user_id = %s AND test_id = %s
ORDER BY finished_at DESC NULLS LAST LIMIT 1`. -/
def lastAttempt (attempts : List AttemptRow) (uid tid : String) : Option AttemptRow :=
  (attempts.filter fun r => r.user_id = uid && r.test_id = tid).foldl
    (pickBest finishedLater) none

/-- Row of `tests` as used by `take_test`: `questions` holds the result of
`_normalize_questions(json.loads(t['questions'] or '[]'))`. -/
structure TestRow where
  id : String
  questions : List NQuestion
  is_published : Bool
deriving DecidableEq, Repr

/-- HTTP method of the request. -/
inductive Method
  | get
  | post
deriving DecidableEq, Repr

/-- Responses `take_test` can produce. -/
inductive TTOut
  | redirectLogin
  | redirectApplications
  | redirectTests
  | notFound
  | prevResult (score : Option Int)
  | formAgain
  | result (score : Nat)
  | showForm
deriving DecidableEq, Repr

/-- Embedding of `take_test(test_id)`.  `sessionUser` is the resolved
session user id, `role` the user's `role` column, `apps` the applications
table (for the approval gate), `t` the loaded test (`none` when the
`SELECT` finds nothing), `attempts` the `test_attempts` table,
`timerExpired` the outcome of the session-deadline comparison in the POST
branch, `now` the current time, and `form` the posted values.  Returns the
new `test_attempts` table and the response. -/
def take_test (sessionUser : Option String) (role : Option String)
    (apps : List UserAppRow) (t : Option TestRow) (attempts : List AttemptRow)
    (method : Method) (timerExpired : Bool) (form : Nat → List String) (now : Int) :
    List AttemptRow × TTOut :=
  match require_approved_or_redirect sessionUser apps with
  | .redirectLogin => (attempts, .redirectLogin)
  | .redirectApplications => (attempts, .redirectApplications)
  | .proceed uid =>
    match t with
    | none => (attempts, .redirectTests)
    | some t =>
      if ¬ t.is_published ∧ lowerStr ((role).getD "") ≠ "admin" then (attempts, .notFound)
      else
        let qs := t.questions
        match lastAttempt attempts uid t.id with
        | some last => (attempts, .prevResult last.score)
        | none =>
          match method with
          | .get => (attempts, .showForm)
          | .post =>
            if timerExpired then (attempts, .redirectTests)
            else
              match collectAnswers qs form 0 with
              | none => (attempts, .formAgain)
              | some ans =>
                let sc := computeScore qs ans
                (attempts ++ [⟨uid, t.id, some now, some (sc : Int)⟩], .result sc)

/-! ### Provisioner gate (`app/decorators.py`, `provisioner_required`) -/

/-- Row of `users` as read by `provisioner_required`. -/
structure ProvUser where
  role : Option String
  is_active : Bool
  access_expires_at : Option Int
deriving DecidableEq, Repr

/-- Outcome of the decorator. -/
inductive ProvOut
  | forbidden
  | runView
deriving DecidableEq, Repr

/-- `u = get_user_by_email(email) if email else None`: an absent or empty
(falsy) session e-mail skips the lookup. -/
def resolveUser (email : Option String) (lookup : String → Option ProvUser) :
    Option ProvUser :=
  match email with
  | none => none
  | some e => if e = "" then none else lookup e

/-- Embedding of `provisioner_required`: 403 unless the session e-mail
resolves to a user whose lower-cased role is `provisioner`, who is active,
and whose `access_expires_at` is absent or not earlier than now. -/
def provisioner_required (email : Option String) (lookup : String → Option ProvUser)
    (now : Int) : ProvOut :=
  match resolveUser email lookup with
  | none => .forbidden
  | some u =>
    if lowerStr (u.role.getD "") ≠ "provisioner" ∨ u.is_active = false then .forbidden
    else
      match u.access_expires_at with
      | some exp => if exp < now then .forbidden else .runView
      | none => .runView

/-! ### Expiring an internal account (`app/routes/provisioning.py`, `delete_user`) -/

/-- Row of `users` with the columns `delete_user` could touch. -/
structure DbUser where
  id : String
  email : Option String
  full_name : Option String
  role : Option String
  password_hash : Option String
  is_active : Bool
  access_expires_at : Option Int
deriving DecidableEq, Repr

/-- Response of the `delete_user` route. -/
inductive DeleteResp
  | ok
  | notFound
deriving DecidableEq, Repr

/-- Embedding of `delete_user(user_id)`:
`UPDATE users SET is_active = FALSE WHERE id = %s`; a zero rowcount
answers 404 (nothing was changed), otherwise the change commits. -/
def delete_user (users : List DbUser) (uid : String) : List DbUser × DeleteResp :=
  let updated := users.map fun r => if r.id = uid then { r with is_active := false } else r
  let rowcount := users.countP fun r => r.id = uid
  if rowcount = 0 then (users, .notFound) else (updated, .ok)

/-! ### Migrations (`app/migrations.py`, `run_migrations`)

`run_migrations` executes every statement with `c.execute` on one
non-autocommit connection (the pool is created with only a row factory, so
the psycopg default of implicit transactions applies).  PostgreSQL
semantics of such a connection: once a statement raises a database error
the transaction is aborted, and every further `execute` on it — the
`finally` block's `pg_advisory_unlock` included — raises
`InFailedSqlTransaction` without running anything server-side.
`pg_advisory_lock` is session-level: it survives the later rollback, so
whether it is still held after `run_migrations` depends solely on whether
the unlock statement actually ran. -/

/-- Exceptions a statement on the migration connection can raise. -/
inductive MigErr
  | bootstrapError
  | inFailedSqlTransaction
deriving DecidableEq, Repr

/-- Statements the server actually executed on the migration connection. -/
inductive MigEvent
  | setLockTimeout
  | setStatementTimeout
  | acquireLock (id : Int)
  | bootstrapOk
  | bootstrapFail
  | releaseLock (id : Int)
deriving DecidableEq, Repr

/-- State of the migration connection: whether this session holds the
advisory lock, whether the current transaction is aborted, whether
`bootstrap_schema` committed, and the trace of executed statements. -/
structure MigState where
  lockHeld : Bool
  txAborted : Bool
  schemaApplied : Bool
  trace : List MigEvent
deriving DecidableEq, Repr

/-- `MIGRATION_LOCK_ID = 764392`. -/
def MIGRATION_LOCK_ID : Int := 764392

/-- `cursor.execute(...)` on the non-autocommit connection: in an aborted
transaction every statement raises `InFailedSqlTransaction` and has no
server-side effect; otherwise the statement's own effect applies. -/
def pgExec (step : MigState → MigState × Option MigErr) (s : MigState) :
    MigState × Option MigErr :=
  if s.txAborted then (s, some MigErr.inFailedSqlTransaction) else step s

/-- `SET lock_timeout TO '5s'`. -/
def setLockTimeoutStep : MigState → MigState × Option MigErr :=
  pgExec fun s => ({ s with trace := s.trace ++ [.setLockTimeout] }, none)

/-- `SET statement_timeout TO '600s'`. -/
def setStatementTimeoutStep : MigState → MigState × Option MigErr :=
  pgExec fun s => ({ s with trace := s.trace ++ [.setStatementTimeout] }, none)

/-- `SELECT pg_advisory_lock(%s)`: takes the session-level lock. -/
def acquireLockStep : MigState → MigState × Option MigErr :=
  pgExec fun s =>
    ({ s with lockHeld := true, trace := s.trace ++ [.acquireLock MIGRATION_LOCK_ID] },
     none)

/-- `bootstrap_schema(conn=conn)` (`_apply_bootstrap_sql` on a cursor of
the same connection, then `conn.commit()`): either commits, or a statement
raises a database error (`fails = true`), which leaves the transaction
aborted. -/
def bootstrapSchemaStep (fails : Bool) : MigState → MigState × Option MigErr :=
  pgExec fun s =>
    if fails then
      ({ s with txAborted := true, trace := s.trace ++ [.bootstrapFail] },
       some MigErr.bootstrapError)
    else
      ({ s with schemaApplied := true, trace := s.trace ++ [.bootstrapOk] }, none)

/-- `SELECT pg_advisory_unlock(%s)` in the `finally` block — it is itself a
`c.execute` on the same connection, so it too is refused when the
transaction is aborted. -/
def releaseLockStep : MigState → MigState × Option MigErr :=
  pgExec fun s =>
    ({ s with lockHeld := false, trace := s.trace ++ [.releaseLock MIGRATION_LOCK_ID] },
     none)

/-- Statement sequencing: a raised exception propagates and skips the rest. -/
def andThen (r : MigState × Option MigErr) (k : MigState → MigState × Option MigErr) :
    MigState × Option MigErr :=
  match r with
  | (s, none) => k s
  | (s, some e) => (s, some e)

/-- Python `try: body finally: fin`: the `finally` block always starts; an
exception raised inside it replaces the body's exception, otherwise the
body's outcome stands. -/
def tryFinally (body fin : MigState → MigState × Option MigErr) (s : MigState) :
    MigState × Option MigErr :=
  let r1 := body s
  let r2 := fin r1.1
  (r2.1,
   match r2.2 with
   | some e => some e
   | none => r1.2)

/-- Embedding of `run_migrations()`: set the two timeouts, take the project
advisory lock, and run `bootstrap_schema` under `try`/`finally` with
`pg_advisory_unlock` in the `finally` block, all on the same connection. -/
def run_migrations (bootstrapFails : Bool) (s : MigState) : MigState × Option MigErr :=
  andThen (setLockTimeoutStep s) fun s1 =>
  andThen (setStatementTimeoutStep s1) fun s2 =>
  andThen (acquireLockStep s2) fun s3 =>
  tryFinally (bootstrapSchemaStep bootstrapFails) releaseLockStep s3

/-! ### Password reset (`app/routes/auth.py`, `forgot` and `reset`) -/

/-- Row of `password_resets`. -/
structure ResetRow where
  id : String
  user_id : String
  token : String
  expires_at : Int
  used : Bool
deriving DecidableEq, Repr

/-- Row of `users` as used by the reset flow. -/
structure AuthUser where
  id : String
  email : String
  password_hash : Option String
deriving DecidableEq, Repr

/-- The tables touched by the reset flow. -/
structure AuthState where
  users : List AuthUser
  resets : List ResetRow
deriving DecidableEq, Repr

/-- Responses of the `reset` route. -/
inductive ResetOut
  | invalidLink
  | pwTooShort
  | pwMismatch
  | success
  | showForm
deriving DecidableEq, Repr

/-- `SELECT pr.id, pr.user_id, pr.expires_at, pr.used, u.email FROM
password_resets pr JOIN users u ON u.id = pr.user_id WHERE pr.token = %s`
(`token` is UNIQUE, so the first match is the match). -/
def findResetRow (st : AuthState) (token : String) : Option (ResetRow × AuthUser) :=
  match st.resets.find? (fun r => r.token = token) with
  | none => none
  | some r =>
    match st.users.find? (fun u => u.id = r.user_id) with
    | none => none
    | some u => some (r, u)

/-- Embedding of `reset(token)`: reject when the row is missing, already
used, or expired (`expires_at < now`); on POST validate the two password
fields, then set the user's `password_hash` and mark the row used in one
transaction.  `hash` stands for `generate_password_hash`. -/
def reset (hash : String → String) (st : AuthState) (token : String) (now : Int)
    (method : Method) (pw0 pw20 : String) : AuthState × ResetOut :=
  match findResetRow st token with
  | none => (st, .invalidLink)
  | some (r, _u) =>
    if r.used then (st, .invalidLink)
    else if r.expires_at < now then (st, .invalidLink)
    else
      match method with
      | .get => (st, .showForm)
      | .post =>
        let pw := pyStrip pw0
        let pw2 := pyStrip pw20
        if pw.length < 12 then (st, .pwTooShort)
        else if pw ≠ pw2 then (st, .pwMismatch)
        else
          ({ users := st.users.map fun u =>
               if u.id = r.user_id then { u with password_hash := some (hash pw) } else u,
             resets := st.resets.map fun x =>
               if x.id = r.id then { x with used := true } else x },
           .success)

/-- Embedding of the POST branch of `forgot()`: look the e-mail up
case-insensitively; when a user exists, insert a `password_resets` row with
a fresh id and token, `expires_at = now + 2 hours` and `used` defaulted to
`FALSE`. -/
def forgot (st : AuthState) (email : String) (newId token : String) (now : Int) :
    AuthState :=
  let e := lowerStr (pyStrip email)
  match st.users.find? (fun u => lowerStr u.email = e) with
  | none => st
  | some u =>
    { st with resets := st.resets ++ [⟨newId, u.id, token, now + 7200, false⟩] }

/-! ### Spec-side predicates

Definitions below restate conditions exactly as the claims word them, to
be compared with the functions embedded from the source. -/

/-- Claim C3's condition for `'approved'`: `lower(trim(s))` starts with
`одобр` or is one of the approved words. -/
def approvedInput (s : String) : Prop :=
  beginsWith (lowerStr (btrim s)) "одобр" ∨ lowerStr (btrim s) ∈ approvedWords

/-- Claim C3's condition for `'rejected'`: `lower(trim(s))` starts with
`отклон` or is one of the rejected words. -/
def rejectedInput (s : String) : Prop :=
  beginsWith (lowerStr (btrim s)) "отклон" ∨ lowerStr (btrim s) ∈ rejectedWords

/-- Number of attempts stored for a `(user_id, test_id)` pair. -/
def attemptCount (attempts : List AttemptRow) (uid tid : String) : Nat :=
  attempts.countP fun r => r.user_id = uid && r.test_id = tid

instance (s : String) : Decidable (approvedInput s) := by
  unfold approvedInput; infer_instance

instance (s : String) : Decidable (rejectedInput s) := by
  unfold rejectedInput; infer_instance

/-! ## Theorems -/

/-- C3: `to_status_code` returns `NULL` on `NULL` or blank input, `'approved'`
when `lower(trim(s))` starts with `одобр` or is an approved word,
`'rejected'` when it starts with `отклон` or is a rejected word, and the
input unchanged otherwise (earlier branches taking precedence). -/
theorem to_status_code_correct :
    to_status_code none = none ∧
    ∀ s : String,
      (btrim s = "" → to_status_code (some s) = none) ∧
      (btrim s ≠ "" → approvedInput s → to_status_code (some s) = some "approved") ∧
      (btrim s ≠ "" → ¬ approvedInput s → rejectedInput s →
        to_status_code (some s) = some "rejected") ∧
      (btrim s ≠ "" → ¬ approvedInput s → ¬ rejectedInput s →
        to_status_code (some s) = some s) := by
  refine ⟨rfl, fun s => ⟨?_, ?_, ?_, ?_⟩⟩
  · intro h1; simp [to_status_code, h1]
  · intro h1 h2
    rcases h2 with h2 | h2 <;> simp [to_status_code, h1, h2]
  · intro h1 h2 h3
    simp only [approvedInput, not_or] at h2
    obtain ⟨h2a, h2b⟩ := h2
    rcases h3 with h3 | h3 <;> simp [to_status_code, h1, h2a, h2b, h3]
  · intro h1 h2 h3
    simp only [approvedInput, not_or] at h2
    simp only [rejectedInput, not_or] at h3
    obtain ⟨h2a, h2b⟩ := h2
    obtain ⟨h3a, h3b⟩ := h3
    simp [to_status_code, h1, h2a, h2b, h3a, h3b]

/-- Witness for C3 at the concrete input `Одобрено`. -/
theorem to_status_code_correct_witness :
    to_status_code (some "Одобрено") = some "approved" :=
  (to_status_code_correct.2 "Одобрено").2.1 (by decide) (by decide)

/-! ### Helper lemmas -/

theorem listMapFix {α : Type} (f : α → α) :
    ∀ l : List α, (∀ x ∈ l, f x = x) → l.map f = l := by
  intro l h
  induction l with
  | nil => rfl
  | cons a t ih =>
    simp only [List.map_cons, h a (by simp)]
    rw [ih (fun x hx => h x (by simp [hx]))]

theorem tsc_approved_fix : to_status_code (some "approved") = some "approved" := by decide

theorem tsc_rejected_fix : to_status_code (some "rejected") = some "rejected" := by decide

theorem statusOk_sanitizeAppRow (r : AppRow) :
    statusOk (sanitizeAppRow r).commission_status := by
  unfold sanitizeAppRow
  split
  · simp [statusOk]
  · rename_i h
    unfold statusOk
    tauto

theorem sanitizeAppRow_id_of_ok (r : AppRow) (h : statusOk r.commission_status) :
    sanitizeAppRow r = r := by
  obtain ⟨pn, st⟩ := r
  rcases h with h | h | h <;> simp_all [sanitizeAppRow]

theorem normAppRow_id_of_ok (r : AppRow) (h : statusOk r.commission_status) :
    normAppRow r = r := by
  obtain ⟨pn, st⟩ := r
  rcases h with h | h | h <;>
    simp_all [normAppRow, tsc_approved_fix, tsc_rejected_fix]

theorem normAppRow_public_no (r : AppRow) : (normAppRow r).public_no = r.public_no := by
  unfold normAppRow; split <;> rfl

theorem sanitizeAppRow_public_no (r : AppRow) :
    (sanitizeAppRow r).public_no = r.public_no := by
  unfold sanitizeAppRow; split <;> rfl

theorem statusOk_sanitizeLogOld (r : LogRow) : statusOk (sanitizeLogOld r).old_status := by
  unfold sanitizeLogOld
  split
  · simp [statusOk]
  · rename_i h
    unfold statusOk
    tauto

theorem statusOk_sanitizeLogNew (r : LogRow) : statusOk (sanitizeLogNew r).new_status := by
  unfold sanitizeLogNew
  split
  · simp [statusOk]
  · rename_i h
    unfold statusOk
    tauto

theorem sanitizeLogNew_old_status (r : LogRow) :
    (sanitizeLogNew r).old_status = r.old_status := by
  unfold sanitizeLogNew; split <;> rfl

theorem sanitizeLogOld_id_of_ok (r : LogRow) (h : statusOk r.old_status) :
    sanitizeLogOld r = r := by
  obtain ⟨o, n⟩ := r
  rcases h with h | h | h <;> simp_all [sanitizeLogOld]

theorem sanitizeLogNew_id_of_ok (r : LogRow) (h : statusOk r.new_status) :
    sanitizeLogNew r = r := by
  obtain ⟨o, n⟩ := r
  rcases h with h | h | h <;> simp_all [sanitizeLogNew]

theorem normLogRow_id_of_ok (r : LogRow) (h1 : statusOk r.old_status)
    (h2 : statusOk r.new_status) : normLogRow r = r := by
  obtain ⟨o, n⟩ := r
  rcases h1 with h1 | h1 | h1 <;> rcases h2 with h2 | h2 | h2 <;>
    simp_all [normLogRow, tsc_approved_fix, tsc_rejected_fix,
      show to_status_code none = none from rfl]

theorem fillPublicNo_cons_none (a : AppRow) (t : List AppRow) (q : Option (Int × Bool))
    (ha : a.public_no = none) :
    fillPublicNo (a :: t) q
      = ({ a with public_no := some (nextval q).1 } :: (fillPublicNo t (nextval q).2).1,
         (fillPublicNo t (nextval q).2).2) := by
  simp [fillPublicNo, ha]

theorem fillPublicNo_cons_some (a : AppRow) (t : List AppRow) (q : Option (Int × Bool))
    (v : Int) (ha : a.public_no = some v) :
    fillPublicNo (a :: t) q = (a :: (fillPublicNo t q).1, (fillPublicNo t q).2) := by
  simp [fillPublicNo, ha]

theorem fillPublicNo_all_some :
    ∀ (rows : List AppRow) (q : Option (Int × Bool)),
      ∀ r ∈ (fillPublicNo rows q).1, r.public_no ≠ none := by
  intro rows
  induction rows with
  | nil => intro q r hr; simp [fillPublicNo] at hr
  | cons a t ih =>
    intro q r hr
    rcases ha : a.public_no with _ | v
    · rw [fillPublicNo_cons_none a t q ha] at hr
      rcases List.mem_cons.mp hr with hr | hr
      · subst hr; simp
      · exact ih _ r hr
    · rw [fillPublicNo_cons_some a t q v ha] at hr
      rcases List.mem_cons.mp hr with hr | hr
      · subst hr; simp [ha]
      · exact ih _ r hr

theorem fillPublicNo_id_of_all_some :
    ∀ (rows : List AppRow) (q : Option (Int × Bool)),
      (∀ r ∈ rows, r.public_no ≠ none) → fillPublicNo rows q = (rows, q) := by
  intro rows
  induction rows with
  | nil => intro q _; rfl
  | cons a t ih =>
    intro q h
    rcases ha : a.public_no with _ | v
    · exact absurd ha (h a (by simp))
    · rw [fillPublicNo_cons_some a t q v ha, ih q (fun r hr => h r (by simp [hr]))]

theorem appRowsAfter_all_ok (rows : List AppRow) :
    ∀ r ∈ appRowsAfter rows, statusOk r.commission_status := by
  intro r hr
  unfold appRowsAfter at hr
  rcases List.mem_map.mp hr with ⟨r0, _, hr0⟩
  rw [← hr0]
  exact statusOk_sanitizeAppRow r0

theorem appRowsAfter_all_some (rows : List AppRow) :
    ∀ r ∈ appRowsAfter rows, r.public_no ≠ none := by
  intro r hr
  unfold appRowsAfter at hr
  rcases List.mem_map.mp hr with ⟨r1, hr1, hr1e⟩
  rcases List.mem_map.mp hr1 with ⟨r0, hr0, hr0e⟩
  rw [← hr1e, sanitizeAppRow_public_no, ← hr0e, normAppRow_public_no]
  exact fillPublicNo_all_some rows _ r0 hr0

theorem appRowsAfter_idem (rows : List AppRow) :
    appRowsAfter (appRowsAfter rows) = appRowsAfter rows := by
  have hfill := fillPublicNo_id_of_all_some (appRowsAfter rows)
    (some ((maxPublicNo (appRowsAfter rows)).getD 0 + 1, false))
    (appRowsAfter_all_some rows)
  have hnorm : (appRowsAfter rows).map normAppRow = appRowsAfter rows :=
    listMapFix _ _ (fun r hr => normAppRow_id_of_ok r (appRowsAfter_all_ok rows r hr))
  have hsan : (appRowsAfter rows).map sanitizeAppRow = appRowsAfter rows :=
    listMapFix _ _ (fun r hr => sanitizeAppRow_id_of_ok r (appRowsAfter_all_ok rows r hr))
  show (((fillPublicNo (appRowsAfter rows) _).1).map normAppRow).map sanitizeAppRow
      = appRowsAfter rows
  rw [hfill]
  show ((appRowsAfter rows).map normAppRow).map sanitizeAppRow = appRowsAfter rows
  rw [hnorm, hsan]

theorem logRowsAfter_all_ok (rows : List LogRow) :
    ∀ r ∈ logRowsAfter rows, statusOk r.old_status ∧ statusOk r.new_status := by
  intro r hr
  unfold logRowsAfter at hr
  rcases List.mem_map.mp hr with ⟨r1, hr1, hr1e⟩
  rcases List.mem_map.mp hr1 with ⟨r0, _, hr0e⟩
  constructor
  · rw [← hr1e, sanitizeLogNew_old_status, ← hr0e]
    exact statusOk_sanitizeLogOld r0
  · rw [← hr1e]
    exact statusOk_sanitizeLogNew r1

theorem logRowsAfter_idem (rows : List LogRow) :
    logRowsAfter (logRowsAfter rows) = logRowsAfter rows := by
  have hok := logRowsAfter_all_ok rows
  have hnorm : (logRowsAfter rows).map normLogRow = logRowsAfter rows :=
    listMapFix _ _ (fun r hr => normLogRow_id_of_ok r (hok r hr).1 (hok r hr).2)
  have hold : (logRowsAfter rows).map sanitizeLogOld = logRowsAfter rows :=
    listMapFix _ _ (fun r hr => sanitizeLogOld_id_of_ok r (hok r hr).1)
  have hnew : (logRowsAfter rows).map sanitizeLogNew = logRowsAfter rows :=
    listMapFix _ _ (fun r hr => sanitizeLogNew_id_of_ok r (hok r hr).2)
  show (((logRowsAfter rows).map normLogRow).map sanitizeLogOld).map sanitizeLogNew
      = logRowsAfter rows
  rw [hnorm, hold, hnew]

theorem addColumns_some :
    ∀ (adds : List String) (cs : List String),
      ∃ cs2, addColumns (some cs) adds = some cs2 ∧
        (∀ a ∈ cs, a ∈ cs2) ∧ (∀ a ∈ adds, a ∈ cs2) := by
  intro adds
  induction adds with
  | nil => intro cs; exact ⟨cs, rfl, fun a ha => ha, by simp⟩
  | cons c t ih =>
    intro cs
    show ∃ cs2, addColumns (addColumnIfAbsent (some cs) c) t = some cs2 ∧ _ ∧ _
    unfold addColumnIfAbsent
    by_cases hc : c ∈ cs
    · simp only [hc, if_pos]
      rcases ih cs with ⟨cs2, h1, h2, h3⟩
      exact ⟨cs2, h1, h2, by
        intro a ha
        rcases List.mem_cons.mp ha with ha | ha
        · subst ha; exact h2 _ hc
        · exact h3 _ ha⟩
    · simp only [hc, if_neg, not_false_iff]
      rcases ih (cs ++ [c]) with ⟨cs2, h1, h2, h3⟩
      exact ⟨cs2, h1, fun a ha => h2 _ (by simp [ha]), by
        intro a ha
        rcases List.mem_cons.mp ha with ha | ha
        · subst ha; exact h2 _ (by simp)
        · exact h3 _ ha⟩

theorem addColumns_of_mem :
    ∀ (adds : List String) (cs : List String),
      (∀ a ∈ adds, a ∈ cs) → addColumns (some cs) adds = some cs := by
  intro adds
  induction adds with
  | nil => intro cs _; rfl
  | cons c t ih =>
    intro cs h
    show addColumns (addColumnIfAbsent (some cs) c) t = some cs
    rw [show addColumnIfAbsent (some cs) c = some cs by
      simp [addColumnIfAbsent, h c (by simp)]]
    exact ih cs (fun a ha => h a (by simp [ha]))

theorem createTableIfAbsent_some (t : Option (List String)) (cols : List String) :
    ∃ cs, createTableIfAbsent t cols = some cs := by
  cases t <;> exact ⟨_, rfl⟩

theorem createTableIfAbsent_of_some (cs cols : List String) :
    createTableIfAbsent (some cs) cols = some cs := rfl

theorem tablePipelineIdem (cols adds : List String) (t : Option (List String)) :
    addColumns (createTableIfAbsent (addColumns (createTableIfAbsent t cols) adds) cols)
        adds
      = addColumns (createTableIfAbsent t cols) adds := by
  rcases createTableIfAbsent_some t cols with ⟨cs, hcs⟩
  rw [hcs]
  rcases addColumns_some adds cs with ⟨cs2, h1, _, h3⟩
  rw [h1, createTableIfAbsent_of_some, addColumns_of_mem adds cs2 h3]

theorem createTableIfAbsent_idem (cols : List String) (t : Option (List String)) :
    createTableIfAbsent (createTableIfAbsent t cols) cols = createTableIfAbsent t cols := by
  cases t <;> rfl

theorem addIndexes_cons (l : List String) (c : String) (t : List String) :
    addIndexes l (c :: t) = addIndexes (createIndexIfAbsent l c) t := rfl

theorem createIndexIfAbsent_of_mem (l : List String) (c : String) (h : c ∈ l) :
    createIndexIfAbsent l c = l := by
  simp [createIndexIfAbsent, h]

theorem createIndexIfAbsent_of_not_mem (l : List String) (c : String) (h : c ∉ l) :
    createIndexIfAbsent l c = l ++ [c] := by
  simp [createIndexIfAbsent, h]

theorem addIndexes_mem :
    ∀ (names l : List String),
      (∀ n ∈ l, n ∈ addIndexes l names) ∧ (∀ n ∈ names, n ∈ addIndexes l names) := by
  intro names
  induction names with
  | nil => intro l; exact ⟨fun n hn => hn, by simp⟩
  | cons c t ih =>
    intro l
    rw [addIndexes_cons]
    by_cases hc : c ∈ l
    · rw [createIndexIfAbsent_of_mem l c hc]
      rcases ih l with ⟨h1, h2⟩
      refine ⟨h1, ?_⟩
      intro n hn
      rcases List.mem_cons.mp hn with hn | hn
      · subst hn; exact h1 _ hc
      · exact h2 _ hn
    · rw [createIndexIfAbsent_of_not_mem l c hc]
      rcases ih (l ++ [c]) with ⟨h1, h2⟩
      refine ⟨fun n hn => h1 _ (by simp [hn]), ?_⟩
      intro n hn
      rcases List.mem_cons.mp hn with hn | hn
      · subst hn; exact h1 _ (by simp)
      · exact h2 _ hn

theorem addIndexes_of_mem :
    ∀ (names l : List String), (∀ n ∈ names, n ∈ l) → addIndexes l names = l := by
  intro names
  induction names with
  | nil => intro l _; rfl
  | cons c t ih =>
    intro l h
    rw [addIndexes_cons, createIndexIfAbsent_of_mem l c (h c (by simp))]
    exact ih l (fun n hn => h n (by simp [hn]))

theorem addIndexes_idem (names l : List String) :
    addIndexes (addIndexes l names) names = addIndexes l names :=
  addIndexes_of_mem names _ (addIndexes_mem names l).2

/-- C4: after `_apply_bootstrap_sql` every `applications.commission_status`
and every `commission_logs.old_status`/`new_status` is `'approved'`,
`'rejected'` or `NULL`, and every insert or update of these columns
preserves the invariant: the BEFORE triggers canonicalize the value and the
CHECK constraints reject (`none` result) anything else. -/
theorem bootstrap_status_invariant :
    (∀ s : DBState, ∀ r ∈ (applyBootstrapSql s).app_rows, statusOk r.commission_status) ∧
    (∀ s : DBState, ∀ r ∈ (applyBootstrapSql s).log_rows,
      statusOk r.old_status ∧ statusOk r.new_status) ∧
    (∀ rows pn v rows2, insertApplicationRow rows pn v = some rows2 →
      (∀ r ∈ rows, statusOk r.commission_status) →
      ∀ r ∈ rows2, statusOk r.commission_status) ∧
    (∀ rows p v rows2, updateApplicationStatus rows p v = some rows2 →
      (∀ r ∈ rows, statusOk r.commission_status) →
      ∀ r ∈ rows2, statusOk r.commission_status) ∧
    (∀ rows ov nv rows2, insertCommissionLogRow rows ov nv = some rows2 →
      (∀ r ∈ rows, statusOk r.old_status ∧ statusOk r.new_status) →
      ∀ r ∈ rows2, statusOk r.old_status ∧ statusOk r.new_status) ∧
    (∀ rows p ov nv rows2, updateCommissionLogStatus rows p ov nv = some rows2 →
      (∀ r ∈ rows, statusOk r.old_status ∧ statusOk r.new_status) →
      ∀ r ∈ rows2, statusOk r.old_status ∧ statusOk r.new_status) := by
  refine ⟨?_, ?_, ?_, ?_, ?_, ?_⟩
  · intro s r hr
    exact appRowsAfter_all_ok s.app_rows r hr
  · intro s r hr
    exact logRowsAfter_all_ok s.log_rows r hr
  · intro rows pn v rows2 h hok r hr
    simp only [insertApplicationRow] at h
    split at h
    · rename_i hchk
      cases h
      rcases List.mem_append.mp hr with hr | hr
      · exact hok r hr
      · simp only [List.mem_singleton] at hr
        subst hr
        exact hchk
    · cases h
  · intro rows p v rows2 h hok r hr
    simp only [updateApplicationStatus] at h
    split at h
    · rename_i hchk
      cases h
      rcases List.mem_map.mp hr with ⟨r0, hr0, hr0e⟩
      subst hr0e
      by_cases hp : p r0 = true
      · rw [if_pos hp]
        exact hchk
      · rw [if_neg hp]
        exact hok r0 hr0
    · cases h
  · intro rows ov nv rows2 h hok r hr
    simp only [insertCommissionLogRow] at h
    split at h
    · rename_i hchk
      cases h
      rcases List.mem_append.mp hr with hr | hr
      · exact hok r hr
      · simp only [List.mem_singleton] at hr
        subst hr
        exact hchk
    · cases h
  · intro rows p ov nv rows2 h hok r hr
    simp only [updateCommissionLogStatus] at h
    split at h
    · rename_i hchk
      cases h
      rcases List.mem_map.mp hr with ⟨r0, hr0, hr0e⟩
      subst hr0e
      by_cases hp : p r0 = true
      · rw [if_pos hp]
        exact hchk
      · rw [if_neg hp]
        exact hok r0 hr0
    · cases h

/-- Witness for C4: inserting the raw admin decision `Одобрено` into an
empty `applications` table succeeds with the canonical `'approved'`, and
the invariant holds for the inserted row. -/
theorem bootstrap_status_invariant_witness :
    statusOk ((⟨none, some "approved"⟩ : AppRow).commission_status) :=
  bootstrap_status_invariant.2.2.1 [] none (some "Одобрено") [⟨none, some "approved"⟩]
    (by decide) (by simp) ⟨none, some "approved"⟩ (by simp)

theorem apply_indexes_proj (s : DBState) :
    (applyBootstrapSql s).indexes = addIndexes s.indexes bootstrapIndexNames := by
  simp only [applyBootstrapSql]

theorem apply_app_rows_proj (s : DBState) :
    (applyBootstrapSql s).app_rows = appRowsAfter s.app_rows := by
  simp only [applyBootstrapSql]

theorem apply_log_rows_proj (s : DBState) :
    (applyBootstrapSql s).log_rows = logRowsAfter s.log_rows := by
  simp only [applyBootstrapSql]

/-- C5: running `_apply_bootstrap_sql` a second time on a database where it
has already completed leaves every table, column list, index, constraint,
function and trigger as after the first run, and the canonicalized status
data (and the whole `applications` and `commission_logs` row lists) are
unchanged. -/
theorem bootstrap_idempotent (s : DBState) :
    (applyBootstrapSql (applyBootstrapSql s)).users = (applyBootstrapSql s).users ∧
    (applyBootstrapSql (applyBootstrapSql s)).applications
      = (applyBootstrapSql s).applications ∧
    (applyBootstrapSql (applyBootstrapSql s)).tests = (applyBootstrapSql s).tests ∧
    (applyBootstrapSql (applyBootstrapSql s)).test_attempts
      = (applyBootstrapSql s).test_attempts ∧
    (applyBootstrapSql (applyBootstrapSql s)).password_resets
      = (applyBootstrapSql s).password_resets ∧
    (applyBootstrapSql (applyBootstrapSql s)).internal_user_logs
      = (applyBootstrapSql s).internal_user_logs ∧
    (applyBootstrapSql (applyBootstrapSql s)).commission_logs
      = (applyBootstrapSql s).commission_logs ∧
    (applyBootstrapSql (applyBootstrapSql s)).indexes = (applyBootstrapSql s).indexes ∧
    (applyBootstrapSql (applyBootstrapSql s)).public_no_default
      = (applyBootstrapSql s).public_no_default ∧
    (applyBootstrapSql (applyBootstrapSql s)).public_no_not_null
      = (applyBootstrapSql s).public_no_not_null ∧
    (applyBootstrapSql (applyBootstrapSql s)).chk_app_status
      = (applyBootstrapSql s).chk_app_status ∧
    (applyBootstrapSql (applyBootstrapSql s)).chk_logs_status
      = (applyBootstrapSql s).chk_logs_status ∧
    (applyBootstrapSql (applyBootstrapSql s)).fn_to_status_code
      = (applyBootstrapSql s).fn_to_status_code ∧
    (applyBootstrapSql (applyBootstrapSql s)).fn_trg_app
      = (applyBootstrapSql s).fn_trg_app ∧
    (applyBootstrapSql (applyBootstrapSql s)).fn_trg_logs
      = (applyBootstrapSql s).fn_trg_logs ∧
    (applyBootstrapSql (applyBootstrapSql s)).trg_app = (applyBootstrapSql s).trg_app ∧
    (applyBootstrapSql (applyBootstrapSql s)).trg_logs = (applyBootstrapSql s).trg_logs ∧
    (applyBootstrapSql (applyBootstrapSql s)).app_rows = (applyBootstrapSql s).app_rows ∧
    (applyBootstrapSql (applyBootstrapSql s)).log_rows = (applyBootstrapSql s).log_rows := by
  refine ⟨?_, ?_, ?_, ?_, ?_, ?_, ?_, ?_, rfl, rfl, rfl, rfl, rfl, rfl, rfl, rfl, rfl,
    ?_, ?_⟩
  · exact tablePipelineIdem usersCols usersAddedCols s.users
  · exact tablePipelineIdem applicationsCols applicationsAddedCols s.applications
  · exact tablePipelineIdem testsCols ["is_published"] s.tests
  · exact createTableIfAbsent_idem testAttemptsCols s.test_attempts
  · exact createTableIfAbsent_idem passwordResetsCols s.password_resets
  · exact createTableIfAbsent_idem internalUserLogsCols s.internal_user_logs
  · exact createTableIfAbsent_idem commissionLogsCols s.commission_logs
  · rw [apply_indexes_proj, apply_indexes_proj]
    exact addIndexes_idem bootstrapIndexNames s.indexes
  · rw [apply_app_rows_proj, apply_app_rows_proj]
    exact appRowsAfter_idem s.app_rows
  · rw [apply_log_rows_proj, apply_log_rows_proj]
    exact logRowsAfter_idem s.log_rows

theorem pickFold_mem {α : Type} (f : α → α → Bool) :
    ∀ (l : List α) (acc : Option α) (r : α),
      l.foldl (pickBest f) acc = some r → acc = some r ∨ r ∈ l := by
  intro l
  induction l with
  | nil => intro acc r h; exact Or.inl h
  | cons x t ih =>
    intro acc r h
    rw [List.foldl_cons] at h
    rcases ih _ r h with hh | hh
    · cases acc with
      | none =>
        rw [show pickBest f none x = some x from rfl] at hh
        simp only [Option.some.injEq] at hh
        exact Or.inr (by simp [hh])
      | some b =>
        by_cases hf : f x b = true
        · rw [show pickBest f (some b) x = some x by simp [pickBest, hf]] at hh
          simp only [Option.some.injEq] at hh
          exact Or.inr (by simp [hh])
        · rw [show pickBest f (some b) x = some b by simp [pickBest, hf]] at hh
          exact Or.inl hh
    · exact Or.inr (List.mem_cons_of_mem x hh)

theorem pickFold_ne_none {α : Type} (f : α → α → Bool) :
    ∀ (l : List α) (acc : Option α),
      l.foldl (pickBest f) acc = none → acc = none ∧ l = [] := by
  intro l
  induction l with
  | nil => intro acc h; exact ⟨h, rfl⟩
  | cons x t ih =>
    intro acc h
    rw [List.foldl_cons] at h
    rcases ih _ h with ⟨h1, _⟩
    exfalso
    cases acc with
    | none => simp [pickBest] at h1
    | some b =>
      by_cases hf : f x b = true
      · rw [show pickBest f (some b) x = some x by simp [pickBest, hf]] at h1
        simp at h1
      · rw [show pickBest f (some b) x = some b by simp [pickBest, hf]] at h1
        simp at h1

theorem mostRecentApplication_mem (apps : List UserAppRow) (uid : String) (r : UserAppRow)
    (h : mostRecentApplication apps uid = some r) : r ∈ apps := by
  unfold mostRecentApplication at h
  rcases pickFold_mem createdLater _ none r h with hh | hh
  · cases hh
  · exact (List.mem_filter.mp hh).1

/-- C1: the portal never grants test access to a commission-approved user.
The admin decision (`Одобрено` in `admin_update_app_status`) is stored by
the normalization trigger as `'approved'` (first conjunct), and the CHECK
constraint of C4 allows only `'approved'`/`'rejected'`/`NULL` in
`applications.commission_status`; but `_user_has_approved` tests
`startswith('одобр')`, which no such stored value satisfies (second
conjunct), so it returns `False` even for the stored status denoting
approval (third conjunct) and every tests route redirects the approved
user away (fourth and fifth conjuncts), contradicting the claimed
"access is granted exactly when the commission has approved". -/
theorem tests_access_code_bug :
    to_status_code (some "Одобрено") = some "approved" ∧
    (∀ (apps : List UserAppRow) (uid : String),
      (∀ r ∈ apps, statusOk r.commission_status) → user_has_approved apps uid = false) ∧
    user_has_approved [⟨"u1", some "approved", some 0⟩] "u1" = false ∧
    require_approved_or_redirect (some "u1") [⟨"u1", some "approved", some 0⟩]
      = TestsGate.redirectApplications ∧
    take_test (some "u1") (some "user") [⟨"u1", some "approved", some 0⟩]
        (some ⟨"t1", [], true⟩) [] Method.get false (fun _ => []) 0
      = ([], TTOut.redirectApplications) := by
  refine ⟨by decide, ?_, by decide, by decide, by decide⟩
  intro apps uid hok
  unfold user_has_approved
  cases hm : mostRecentApplication apps uid with
  | none => rfl
  | some row =>
    have hrow := mostRecentApplication_mem apps uid row hm
    rcases hok row hrow with h | h | h <;> simp only [h] <;> decide

/-- Witness for C1's universally quantified conjunct: a canonical
`'rejected'` row also yields no access. -/
theorem tests_access_code_bug_witness :
    user_has_approved [⟨"u2", some "rejected", some 3⟩] "u2" = false :=
  tests_access_code_bug.2.1 [⟨"u2", some "rejected", some 3⟩] "u2" (by decide)

theorem scoreStep_eq (sc : Nat) (q : NQuestion) (a : Ans) :
    scoreStep sc q a = sc + (if correctPerSpec q a = true then 1 else 0) := by
  rcases q with ⟨tx, op, mult, ci, corr⟩
  cases mult <;> rcases ci with _ | c <;> rcases a with v | arr <;>
      simp only [scoreStep, correctPerSpec] <;> simp
  all_goals split <;> simp_all

theorem foldl_scoreStep_eq_countP :
    ∀ (l : List (NQuestion × Ans)) (n : Nat),
      l.foldl (fun sc qa => scoreStep sc qa.1 qa.2) n
        = n + l.countP (fun qa => correctPerSpec qa.1 qa.2) := by
  intro l
  induction l with
  | nil => intro n; simp
  | cons qa t ih =>
    intro n
    rw [List.foldl_cons, ih, scoreStep_eq, List.countP_cons]
    by_cases h : correctPerSpec qa.1 qa.2 = true <;> simp [h] <;> omega

theorem computeScore_eq_countP (qs : List NQuestion) (ans : List Ans) :
    computeScore qs ans = (qs.zip ans).countP (fun qa => correctPerSpec qa.1 qa.2) := by
  unfold computeScore
  rw [foldl_scoreStep_eq_countP]
  exact Nat.zero_add _

/-- C2: on a published test with no prior attempt, a POST in which every
question is answered records exactly the number of correctly answered
questions — a single-choice question is correct when the collected index
equals `correct_index`, a multiple-choice question when the sorted set of
submitted indices equals the non-empty sorted list of correct indices —
and the score is the pure function `computeScore` of the normalized
questions and the collected answers alone. -/
theorem take_test_records_count_correct
    (su : String) (role : Option String) (apps : List UserAppRow) (t : TestRow)
    (attempts : List AttemptRow) (form : Nat → List String) (now : Int) (ans : List Ans)
    (hpub : t.is_published = true)
    (happroved : user_has_approved apps su = true)
    (hnoprev : lastAttempt attempts su t.id = none)
    (hcollect : collectAnswers t.questions form 0 = some ans) :
    take_test (some su) role apps (some t) attempts Method.post false form now
      = (attempts ++ [⟨su, t.id, some now,
            some (((t.questions.zip ans).countP fun qa => correctPerSpec qa.1 qa.2 : Nat)
              : Int)⟩],
         TTOut.result ((t.questions.zip ans).countP fun qa => correctPerSpec qa.1 qa.2)) ∧
    computeScore t.questions ans
      = (t.questions.zip ans).countP fun qa => correctPerSpec qa.1 qa.2 := by
  have hcount := computeScore_eq_countP t.questions ans
  refine ⟨?_, hcount⟩
  have hcond : ¬ (¬ t.is_published = true ∧ lowerStr (role.getD "") ≠ "admin") := by
    simp [hpub]
  simp only [take_test, require_approved_or_redirect, happroved, if_true, if_neg hcond,
    hnoprev, hcollect, hcount, Bool.false_eq_true, if_false]

/-- Witness for C2: one single-choice question, answered correctly. -/
theorem take_test_records_count_correct_witness :
    take_test (some "u1") (some "user") [⟨"u1", some "Одобрено", some 0⟩]
        (some ⟨"t1", [⟨"q", ["a", "b"], false, some 1, none⟩], true⟩) []
        Method.post false (fun _ => ["1"]) 5
      = ([⟨"u1", "t1", some 5, some 1⟩], TTOut.result 1) :=
  ((take_test_records_count_correct "u1" (some "user") [⟨"u1", some "Одобрено", some 0⟩]
      ⟨"t1", [⟨"q", ["a", "b"], false, some 1, none⟩], true⟩ [] (fun _ => ["1"]) 5
      [Ans.single 1] rfl (by decide) rfl rfl).1).trans (by decide)

theorem lastAttempt_eq_none_iff (attempts : List AttemptRow) (uid tid : String) :
    lastAttempt attempts uid tid = none ↔ attemptCount attempts uid tid = 0 := by
  unfold lastAttempt attemptCount
  constructor
  · intro h
    have h2 := (pickFold_ne_none finishedLater _ none h).2
    rw [List.countP_eq_zero]
    intro a ha
    intro hpa
    have : a ∈ attempts.filter (fun r => r.user_id = uid && r.test_id = tid) :=
      List.mem_filter.mpr ⟨ha, hpa⟩
    rw [h2] at this
    cases this
  · intro h
    rw [List.countP_eq_zero] at h
    have : attempts.filter (fun r => r.user_id = uid && r.test_id = tid) = [] := by
      rw [List.filter_eq_nil]
      exact h
    rw [this]
    rfl

/-- Table outcome of `take_test`: either the attempts table is untouched, or
no prior attempt existed and exactly one row for this `(user, test)` pair
was appended. -/
theorem take_test_table_cases
    (su : String) (role : Option String) (apps : List UserAppRow) (t : TestRow)
    (attempts : List AttemptRow) (method : Method) (texp : Bool)
    (form : Nat → List String) (now : Int) :
    (take_test (some su) role apps (some t) attempts method texp form now).1 = attempts ∨
    (lastAttempt attempts su t.id = none ∧ ∃ sc : Nat,
      (take_test (some su) role apps (some t) attempts method texp form now).1
        = attempts ++ [⟨su, t.id, some now, some (sc : Int)⟩]) := by
  by_cases happ : user_has_approved apps su = true
  · simp only [take_test, require_approved_or_redirect, happ, if_true]
    by_cases hcond : ¬ t.is_published = true ∧ lowerStr (role.getD "") ≠ "admin"
    · rw [if_pos hcond]
      exact Or.inl rfl
    · rw [if_neg hcond]
      cases hl : lastAttempt attempts su t.id with
      | some a => exact Or.inl rfl
      | none =>
        cases method with
        | get => exact Or.inl rfl
        | post =>
          cases texp with
          | true => exact Or.inl rfl
          | false =>
            simp only [Bool.false_eq_true, if_false]
            cases hc : collectAnswers t.questions form 0 with
            | none => exact Or.inl rfl
            | some ans =>
              exact Or.inr ⟨by trivial, computeScore t.questions ans, by trivial⟩
  · have happ2 : user_has_approved apps su = false := by
      simpa using happ
    simp only [take_test, require_approved_or_redirect, happ2, Bool.false_eq_true, if_false]
    exact Or.inl (by trivial)

/-- C9: `take_test` records at most one attempt per `(user, test)` pair:
with an existing attempt both GET and POST render the previous result and
leave `test_attempts` unchanged; the table changes only by appending one
row for the pair, and only when no prior attempt exists; so a table with
at most one attempt per pair keeps that property. -/
theorem take_test_single_attempt
    (su : String) (role : Option String) (apps : List UserAppRow) (t : TestRow)
    (attempts : List AttemptRow) (method : Method) (texp : Bool)
    (form : Nat → List String) (now : Int) :
    (user_has_approved apps su = true →
      ¬ (¬ t.is_published = true ∧ lowerStr (role.getD "") ≠ "admin") →
      ∀ a, lastAttempt attempts su t.id = some a →
        take_test (some su) role apps (some t) attempts method texp form now
          = (attempts, TTOut.prevResult a.score)) ∧
    (lastAttempt attempts su t.id ≠ none →
      (take_test (some su) role apps (some t) attempts method texp form now).1
        = attempts) ∧
    ((take_test (some su) role apps (some t) attempts method texp form now).1
        ≠ attempts →
      lastAttempt attempts su t.id = none ∧ ∃ sc : Nat,
        (take_test (some su) role apps (some t) attempts method texp form now).1
          = attempts ++ [⟨su, t.id, some now, some (sc : Int)⟩]) ∧
    (∀ u2 t2, attemptCount attempts u2 t2 ≤ 1 →
      attemptCount
        (take_test (some su) role apps (some t) attempts method texp form now).1 u2 t2
        ≤ 1) := by
  have hcases := take_test_table_cases su role apps t attempts method texp form now
  refine ⟨?_, ?_, ?_, ?_⟩
  · intro happ hcond a hl
    simp only [take_test, require_approved_or_redirect, happ, if_true, if_neg hcond, hl]
  · intro hl
    rcases hcases with h | ⟨h0, _⟩
    · exact h
    · exact absurd h0 hl
  · intro hne
    rcases hcases with h | h
    · exact absurd h hne
    · exact h
  · intro u2 t2 hle
    rcases hcases with h | ⟨h0, sc, h⟩
    · rw [h]; exact hle
    · rw [h]
      unfold attemptCount at hle ⊢
      rw [List.countP_append]
      by_cases hpair : u2 = su ∧ t2 = t.id
      · have h0c := (lastAttempt_eq_none_iff attempts su t.id).mp h0
        unfold attemptCount at h0c
        rw [hpair.1, hpair.2, h0c]
        simp [List.countP_cons]
      · have : (AttemptRow.mk su t.id (some now) (some (sc : Int))).user_id = u2
            ∧ (AttemptRow.mk su t.id (some now) (some (sc : Int))).test_id = t2 → False := by
          intro hq
          exact hpair ⟨hq.1.symm, hq.2.symm⟩
        have hz : List.countP (fun r => r.user_id = u2 && r.test_id = t2)
            [AttemptRow.mk su t.id (some now) (some (sc : Int))] = 0 := by
          simp only [List.countP_cons, List.countP_nil]
          by_cases h1 : su = u2 <;> by_cases h2 : t.id = t2 <;> simp_all
        omega

/-- Witness for C9: a user with an existing attempt posting again gets the
previous result and the table is unchanged. -/
theorem take_test_single_attempt_witness :
    take_test (some "u1") (some "user") [⟨"u1", some "Одобрено", some 0⟩]
        (some ⟨"t1", [], true⟩) [⟨"u1", "t1", some 1, some 7⟩] Method.post false
        (fun _ => []) 5
      = ([⟨"u1", "t1", some 1, some 7⟩], TTOut.prevResult (some 7)) :=
  (take_test_single_attempt "u1" (some "user") [⟨"u1", some "Одобрено", some 0⟩]
      ⟨"t1", [], true⟩ [⟨"u1", "t1", some 1, some 7⟩] Method.post false (fun _ => []) 5).1
    (by decide) (by decide) ⟨"u1", "t1", some 1, some 7⟩ (by decide)

/-- C6 counterexample: with `access_expires_at` equal to the current
instant — neither `NULL` nor strictly in the future — the decorator still
runs the view, because the code only aborts when `exp < now`. -/
theorem provisioner_required_strict_expiry_counterexample :
    provisioner_required (some "p@x")
        (fun _ => some ⟨some "provisioner", true, some 0⟩) 0
      = ProvOut.runView ∧
    ¬ ((some 0 : Option Int) = none ∨ (0 : Int) < 0) := by
  exact ⟨rfl, by decide⟩

/-- C6 (amended): a `/provisioning` request runs the wrapped view exactly
when the session e-mail resolves to a user whose lower-cased role is
`provisioner`, whose `is_active` is true, and whose `access_expires_at` is
`NULL` or not earlier than the current time (`now ≤ exp`, rather than the
claimed strict `now < exp`); otherwise it aborts with 403. -/
theorem provisioner_required_runs_iff
    (email : Option String) (lookup : String → Option ProvUser) (now : Int) :
    provisioner_required email lookup now = ProvOut.runView ↔
      ∃ u, resolveUser email lookup = some u ∧
        lowerStr (u.role.getD "") = "provisioner" ∧ u.is_active = true ∧
        (u.access_expires_at = none ∨
          ∃ e, u.access_expires_at = some e ∧ now ≤ e) := by
  constructor
  · intro h
    cases hr : resolveUser email lookup with
    | none =>
      simp only [provisioner_required, hr] at h
      exact absurd h (by simp)
    | some u =>
      simp only [provisioner_required, hr] at h
      by_cases hguard : lowerStr (u.role.getD "") ≠ "provisioner" ∨ u.is_active = false
      · rw [if_pos hguard] at h
        exact absurd h (by simp)
      · rw [if_neg hguard] at h
        push_neg at hguard
        obtain ⟨hro, hact⟩ := hguard
        refine ⟨u, rfl, hro, by simpa using hact, ?_⟩
        cases hexp : u.access_expires_at with
        | none => exact Or.inl rfl
        | some e =>
          simp only [hexp] at h
          by_cases hlt : e < now
          · rw [if_pos hlt] at h
            exact absurd h (by simp)
          · exact Or.inr ⟨e, rfl, by omega⟩
  · rintro ⟨u2, hu2, hro, hact, hex⟩
    simp only [provisioner_required, hu2]
    rw [if_neg (by simp [hro, hact])]
    rcases hex with hex | ⟨e, hex, hle⟩
    · simp only [hex]
    · simp only [hex]
      rw [if_neg (show ¬ e < now by omega)]

/-- C7: `delete_user` expires, never removes: the table keeps its length,
rows with a different id are untouched, the addressed row changes only its
`is_active` flag (to `FALSE`), and when no row matches the route answers
404 with the table unchanged, otherwise 200. -/
theorem delete_user_frame (users : List DbUser) (uid : String) :
    (delete_user users uid).1.length = users.length ∧
    (∀ i r, users.get? i = some r → r.id ≠ uid →
      (delete_user users uid).1.get? i = some r) ∧
    (∀ i r, users.get? i = some r → r.id = uid →
      (delete_user users uid).1.get? i = some { r with is_active := false }) ∧
    (users.countP (fun r => r.id = uid) = 0 →
      delete_user users uid = (users, DeleteResp.notFound)) ∧
    (users.countP (fun r => r.id = uid) ≠ 0 →
      (delete_user users uid).2 = DeleteResp.ok) := by
  unfold delete_user
  by_cases hc : users.countP (fun r => r.id = uid) = 0
  · rw [if_pos hc]
    refine ⟨rfl, fun i r h _ => h, ?_, fun _ => rfl, fun hne => absurd hc hne⟩
    intro i r h heq
    exfalso
    have hmem : r ∈ users := List.get?_mem h
    have := List.countP_eq_zero.mp hc r hmem
    simp [heq] at this
  · rw [if_neg hc]
    refine ⟨by simp, ?_, ?_, fun h0 => absurd h0 hc, fun _ => rfl⟩
    · intro i r h hne
      rw [List.get?_map, h]
      simp [hne]
    · intro i r h heq
      rw [List.get?_map, h]
      simp [heq]

/-- Witness for C7 at a two-row table: the addressed row is deactivated in
place. -/
theorem delete_user_frame_witness :
    (delete_user
        [⟨"a", none, none, some "admin", none, true, none⟩,
         ⟨"b", none, none, some "admin", none, true, none⟩] "a").1.get? 0
      = some ⟨"a", none, none, some "admin", none, false, none⟩ :=
  (delete_user_frame
      [⟨"a", none, none, some "admin", none, true, none⟩,
       ⟨"b", none, none, some "admin", none, true, none⟩] "a").2.2.1 0
    ⟨"a", none, none, some "admin", none, true, none⟩ rfl rfl

/-- C8: `run_migrations` does acquire lock 764392 before `bootstrap_schema`
and does release it on the success path (first conjunct), but the claimed
release on every path fails: when a statement inside `bootstrap_schema`
raises a database error, the transaction is aborted and the `finally`
block's `pg_advisory_unlock` — an `execute` on the same connection — itself
raises `InFailedSqlTransaction` without running, so the session-level lock
is still held when `run_migrations` fails, and no `releaseLock` event ever
reaches the server (second conjunct; third conjunct evaluates the failing
run at a concrete initial state). -/
theorem run_migrations_lock_leak_code_bug :
    (∀ s : MigState, s.txAborted = false →
      run_migrations false s
        = ({ s with
              lockHeld := false,
              schemaApplied := true,
              trace := s.trace ++ [MigEvent.setLockTimeout, MigEvent.setStatementTimeout,
                MigEvent.acquireLock MIGRATION_LOCK_ID, MigEvent.bootstrapOk,
                MigEvent.releaseLock MIGRATION_LOCK_ID] }, none)) ∧
    (∀ s : MigState, s.txAborted = false →
      (run_migrations true s).1.lockHeld = true ∧
      (run_migrations true s).2 = some MigErr.inFailedSqlTransaction ∧
      (run_migrations true s).1.trace
        = s.trace ++ [MigEvent.setLockTimeout, MigEvent.setStatementTimeout,
            MigEvent.acquireLock MIGRATION_LOCK_ID, MigEvent.bootstrapFail]) ∧
    run_migrations true ⟨false, false, false, []⟩
      = (⟨true, true, false,
          [MigEvent.setLockTimeout, MigEvent.setStatementTimeout,
           MigEvent.acquireLock MIGRATION_LOCK_ID, MigEvent.bootstrapFail]⟩,
         some MigErr.inFailedSqlTransaction) := by
  refine ⟨?_, ?_, by decide⟩
  · intro s h
    simp [run_migrations, andThen, tryFinally, setLockTimeoutStep,
      setStatementTimeoutStep, acquireLockStep, bootstrapSchemaStep, releaseLockStep,
      pgExec, h]
  · intro s h
    refine ⟨?_, ?_, ?_⟩ <;>
      simp [run_migrations, andThen, tryFinally, setLockTimeoutStep,
        setStatementTimeoutStep, acquireLockStep, bootstrapSchemaStep, releaseLockStep,
        pgExec, h]

/-- Witness for C8: the success path at a concrete fresh connection does
release the lock. -/
theorem run_migrations_lock_leak_code_bug_witness :
    run_migrations false ⟨false, false, false, []⟩
      = (⟨false, false, true,
          [MigEvent.setLockTimeout, MigEvent.setStatementTimeout,
           MigEvent.acquireLock MIGRATION_LOCK_ID, MigEvent.bootstrapOk,
           MigEvent.releaseLock MIGRATION_LOCK_ID]⟩, none) :=
  (run_migrations_lock_leak_code_bug.1 ⟨false, false, false, []⟩ rfl).trans (by decide)

/-- C10 counterexample: a token whose `expires_at` equals the current
instant — not strictly in the future — is still accepted and the password
is changed, because the code only rejects when `expires_at < now`. -/
theorem reset_expiry_boundary_counterexample :
    (reset (fun p => "h" ++ p)
        ⟨[⟨"u1", "e@x", some "old"⟩], [⟨"pr1", "u1", "tok", 0, false⟩]⟩
        "tok" 0 Method.post "abcdefghijkl" "abcdefghijkl").2 = ResetOut.success ∧
    (reset (fun p => "h" ++ p)
        ⟨[⟨"u1", "e@x", some "old"⟩], [⟨"pr1", "u1", "tok", 0, false⟩]⟩
        "tok" 0 Method.post "abcdefghijkl" "abcdefghijkl").1.users
      ≠ [⟨"u1", "e@x", some "old"⟩] ∧
    ¬ ((0 : Int) < 0) := by
  exact ⟨rfl, by decide, by decide⟩

theorem find?_map_invariant {α : Type} (g : α → α) (p : α → Bool) (l : List α)
    (hp : ∀ x, p (g x) = p x) :
    (l.map g).find? p = (l.find? p).map g := by
  induction l with
  | nil => rfl
  | cons a t ih =>
    by_cases hpa : p a = true
    · rw [List.map_cons, List.find?_cons_of_pos _ (by rw [hp]; exact hpa),
        List.find?_cons_of_pos _ hpa]
      rfl
    · rw [List.map_cons, List.find?_cons_of_neg _ (by rw [hp]; simpa using hpa),
        List.find?_cons_of_neg _ (by simpa using hpa)]
      exact ih

/-- Outcomes of `reset`: either the state is untouched (and the response is
not `success`), or the token row was found with an unexpired, unused token
on a POST with valid passwords, and exactly the addressed user's hash and
the row's `used` flag change. -/
theorem reset_cases (hash : String → String) (st : AuthState) (token : String)
    (now : Int) (method : Method) (pw0 pw20 : String) :
    ((reset hash st token now method pw0 pw20).1 = st ∧
      (reset hash st token now method pw0 pw20).2 ≠ ResetOut.success) ∨
    (∃ r u, findResetRow st token = some (r, u) ∧ r.used = false ∧
      ¬ r.expires_at < now ∧ method = Method.post ∧
      (reset hash st token now method pw0 pw20).2 = ResetOut.success ∧
      (reset hash st token now method pw0 pw20).1
        = ⟨st.users.map (fun x => if x.id = r.user_id then
              { x with password_hash := some (hash (pyStrip pw0)) } else x),
           st.resets.map (fun x => if x.id = r.id then { x with used := true } else x)⟩) := by
  cases hf : findResetRow st token with
  | none =>
    simp only [reset, hf]
    exact Or.inl ⟨by trivial, by simp⟩
  | some ru =>
    obtain ⟨r, u⟩ := ru
    simp only [reset, hf]
    by_cases hused : r.used = true
    · rw [if_pos hused]
      exact Or.inl ⟨rfl, by simp⟩
    · rw [if_neg hused]
      by_cases hexp : r.expires_at < now
      · rw [if_pos hexp]
        exact Or.inl ⟨rfl, by simp⟩
      · rw [if_neg hexp]
        cases method with
        | get => exact Or.inl ⟨rfl, by simp⟩
        | post =>
          by_cases hlen : (pyStrip pw0).length < 12
          · rw [if_pos hlen]
            exact Or.inl ⟨rfl, by simp⟩
          · rw [if_neg hlen]
            by_cases hpw : pyStrip pw0 ≠ pyStrip pw20
            · rw [if_pos hpw]
              exact Or.inl ⟨rfl, by simp⟩
            · rw [if_neg hpw]
              exact Or.inr ⟨r, u, rfl, by simpa using hused, hexp, rfl, rfl, rfl⟩

/-- C10 (amended): `reset` changes a password only when the token's row
exists (joined to its user), is unused, and has `expires_at` not earlier
than the current time (`now ≤ expires_at`, rather than the claimed strict
future) on a POST with valid passwords; a successful reset marks the row
used in the same state change, so every later call with the same token is
rejected with the state unchanged; and `forgot` creates rows that expire
exactly 2 hours (7200 s) after creation, unused. -/
theorem reset_single_use (hash : String → String) (st : AuthState) (token : String)
    (now : Int) (method : Method) (pw0 pw20 : String) :
    ((reset hash st token now method pw0 pw20).1.users ≠ st.users →
      ∃ r u, findResetRow st token = some (r, u) ∧ r.used = false ∧
        now ≤ r.expires_at ∧ method = Method.post ∧
        (reset hash st token now method pw0 pw20).2 = ResetOut.success) ∧
    ((reset hash st token now method pw0 pw20).2 = ResetOut.success →
      ∀ (now2 : Int) (m2 : Method) (pwa pwb : String),
        reset hash (reset hash st token now method pw0 pw20).1 token now2 m2 pwa pwb
          = ((reset hash st token now method pw0 pw20).1, ResetOut.invalidLink)) ∧
    (∀ (st2 : AuthState) (email newId tkn : String) (now3 : Int),
      (forgot st2 email newId tkn now3).resets = st2.resets ∨
      ∃ uid, (forgot st2 email newId tkn now3).resets
        = st2.resets ++ [⟨newId, uid, tkn, now3 + 7200, false⟩]) := by
  refine ⟨?_, ?_, ?_⟩
  · intro hch
    rcases reset_cases hash st token now method pw0 pw20 with ⟨hst, _⟩ | h
    · rw [hst] at hch
      exact absurd rfl hch
    · obtain ⟨r, u, hf, hused, hexp, hm, hsucc, _⟩ := h
      exact ⟨r, u, hf, hused, by omega, hm, hsucc⟩
  · intro hs now2 m2 pwa pwb
    rcases reset_cases hash st token now method pw0 pw20 with ⟨_, hno⟩ | h
    · exact absurd hs hno
    · obtain ⟨r, u, hf, hused, hexp, hm, hsucc, hstate⟩ := h
      have hfind1 : st.resets.find? (fun x => x.token = token) = some r := by
        unfold findResetRow at hf
        cases h1 : st.resets.find? (fun x => x.token = token) with
        | none => simp [h1] at hf
        | some r2 =>
          simp only [h1] at hf
          cases h2 : st.users.find? (fun u2 => u2.id = r2.user_id) with
          | none => simp [h2] at hf
          | some u2 =>
            simp only [h2, Option.some.injEq, Prod.mk.injEq] at hf
            rw [hf.1]
      have husers1 : st.users.find? (fun x => x.id = r.user_id) = some u := by
        unfold findResetRow at hf
        cases h1 : st.resets.find? (fun x => x.token = token) with
        | none => simp [h1] at hf
        | some r2 =>
          simp only [h1] at hf
          cases h2 : st.users.find? (fun u2 => u2.id = r2.user_id) with
          | none => simp [h2] at hf
          | some u2 =>
            simp only [h2, Option.some.injEq, Prod.mk.injEq] at hf
            rw [← hf.1, h2, hf.2]
      rw [hstate]
      have hfr : ((st.resets.map
            (fun x => if x.id = r.id then { x with used := true } else x)).find?
              (fun x => x.token = token))
          = some { r with used := true } := by
        rw [find?_map_invariant _ _ _ (by
          intro x
          by_cases hx : x.id = r.id <;> simp [hx])]
        rw [hfind1]
        simp
      have hfu : ((st.users.map (fun x => if x.id = r.user_id then
            { x with password_hash := some (hash (pyStrip pw0)) } else x)).find?
              (fun x => x.id = r.user_id))
          = some (if u.id = r.user_id then
              { u with password_hash := some (hash (pyStrip pw0)) } else u) := by
        rw [find?_map_invariant _ _ _ (by
          intro x
          by_cases hx : x.id = r.user_id <;> simp [hx])]
        rw [husers1]
        rfl
      simp [reset, findResetRow, hfr, hfu]
  · intro st2 email newId tkn now3
    cases hu : st2.users.find? (fun u => lowerStr u.email = lowerStr (pyStrip email)) with
    | none =>
      left
      simp only [forgot, hu]
    | some u =>
      right
      exact ⟨u.id, by simp only [forgot, hu]⟩

/-- Witness for C10: after a successful reset the same token is rejected
and the state is unchanged. -/
theorem reset_single_use_witness :
    reset (fun p => "h" ++ p)
        (reset (fun p => "h" ++ p)
          ⟨[⟨"u1", "e@x", some "old"⟩], [⟨"pr1", "u1", "tok", 100, false⟩]⟩
          "tok" 0 Method.post "abcdefghijkl" "abcdefghijkl").1
        "tok" 0 Method.post "abcdefghijkl" "abcdefghijkl"
      = ((reset (fun p => "h" ++ p)
          ⟨[⟨"u1", "e@x", some "old"⟩], [⟨"pr1", "u1", "tok", 100, false⟩]⟩
          "tok" 0 Method.post "abcdefghijkl" "abcdefghijkl").1, ResetOut.invalidLink) :=
  (reset_single_use (fun p => "h" ++ p)
      ⟨[⟨"u1", "e@x", some "old"⟩], [⟨"pr1", "u1", "tok", 100, false⟩]⟩
      "tok" 0 Method.post "abcdefghijkl" "abcdefghijkl").2.1 rfl 0 Method.post
    "abcdefghijkl" "abcdefghijkl"

end Leaders
